import Mathlib

/-!
Verification of the threadspace backend's real-time consistency and delivery
layer, as a shallow embedding in Lean 4.

The definitions below are translated from the repository's TypeScript
resolvers and SQL schema:
* `src/graphql/resolvers/voteResolvers.ts` (vote, removeVote, bookmarks),
* `src/graphql/resolvers/postResolvers.ts` (post, posts queries),
* `src/graphql/resolvers/commentResolvers.ts` (comments query, createComment),
* `src/graphql/resolvers/typingResolvers.ts` (typing presence),
* `src/graphql/resolvers/dataloaders.ts` (loaders, which filter soft-deleted
  rows),
* the subscription resolvers and the SSE endpoint of the server entry point,
* `database/schema.sql` (the `BEFORE UPDATE` trigger setting `updated_at`,
  the `comments.path LTREE` column) and `database/demo.sql` (the fixed
  `update_comment_path` trigger).

The relational store is modelled as lists of rows; `Date` values are modelled
as natural numbers (milliseconds since the epoch; `toISOString` is injective
on such values, so cursors that serialize a timestamp are modelled by the
number itself).  JavaScript exceptions are modelled with `Except`.
-/

/-- GraphQL vote direction enum (`UPVOTE` / `DOWNVOTE`). -/
inductive VoteType where
  | UPVOTE
  | DOWNVOTE
deriving DecidableEq, Repr

/-- GraphQL votable-target enum (`POST` / `COMMENT`).  The database stores the
lowercase strings `"post"` / `"comment"`; see `dbTargetType`. -/
inductive VotableType where
  | POST
  | COMMENT
deriving DecidableEq, Repr

/-- Error taxonomy from `resolvers/utils.ts` (`GraphQLError` subclasses).  Each
constructor carries the human message; the constructor itself is the stable
machine-readable kind. -/
inductive GQLError where
  | validation (msg : String)
  | authentication (msg : String)
  | authorization (msg : String)
  | notFound (msg : String)
  | conflict (msg : String)
deriving DecidableEq, Repr

deriving instance DecidableEq for Except

/-- Row of the `posts` table (fields used by the resolvers). -/
structure Post where
  id : String
  authorId : String
  title : String
  content : String
  threadType : String
  views : Option Nat
  isPinned : Bool
  isLocked : Bool
  createdAt : Nat
  updatedAt : Nat
  deletedAt : Option Nat
deriving DecidableEq, Repr

/-- Row of the `comments` table.  `postId` and `path` are nullable columns in
`database/schema.sql`; `depth` defaults to `0`. -/
structure Comment where
  id : String
  postId : Option String
  parentId : Option String
  authorId : String
  content : String
  depth : Int
  path : Option String
  isEdited : Bool
  createdAt : Nat
  updatedAt : Nat
  deletedAt : Option Nat
deriving DecidableEq, Repr

/-- Row of the `votes` table.  `votableType` holds the database enum value,
i.e. the lowercase string `"post"` or `"comment"`. -/
structure Vote where
  userId : String
  votableId : String
  votableType : String
  voteType : VoteType
deriving DecidableEq, Repr

/-- Row of the `bookmarks` table ((user, post) presence pair). -/
structure Bookmark where
  userId : String
  postId : String
deriving DecidableEq, Repr

/-- Row of the `audit_logs` table, as populated by the `audit_trigger`
function of `database/schema.sql`: the statement kind (`TG_OP`), the table
name, the affected row's id (`NEW.id` except for deletes), and JSON snapshots
of the old and new row (modelled as the rows themselves; only posts writes are
audited in the operations under verification, via `audit_posts_trigger`).
`user_id` comes from `current_setting('app.current_user_id', true)`, which
this backend never sets, so it is recorded as NULL. -/
structure AuditLog where
  userId : Option String
  action : String
  tableName : String
  recordId : String
  oldData : Option Post
  newData : Option Post
deriving DecidableEq, Repr

/-- The relational store visible to the resolvers under verification. -/
structure DB where
  posts : List Post
  comments : List Comment
  votes : List Vote
  bookmarks : List Bookmark
  auditLogs : List AuditLog := []
deriving DecidableEq, Repr

/-- `createPostLoader` from `dataloaders.ts`: look a post up by id, filtering
`deletedAt: null`. -/
def postLoad (db : DB) (id : String) : Option Post :=
  db.posts.find? (fun p => decide (p.id = id ∧ p.deletedAt = none))

/-- `createCommentLoader` from `dataloaders.ts`: look a comment up by id,
filtering `deletedAt: null`. -/
def commentLoad (db : DB) (id : String) : Option Comment :=
  db.comments.find? (fun c => decide (c.id = id ∧ c.deletedAt = none))

/-- `createVoteLoader` from `dataloaders.ts`: look a vote up by its composite
key `(userId, votableId, votableType)`. -/
def voteLoad (db : DB) (userId votableId votableType : String) : Option Vote :=
  db.votes.find? (fun v =>
    decide (v.userId = userId ∧ v.votableId = votableId ∧ v.votableType = votableType))

/-- `createBookmarkLoader` from `dataloaders.ts`: look a bookmark up by
`(userId, postId)`. -/
def bookmarkLoad (db : DB) (userId postId : String) : Option Bookmark :=
  db.bookmarks.find? (fun b => decide (b.userId = userId ∧ b.postId = postId))

/-- `calculateVoteCount` from `resolvers/utils.ts`: reduce over the rows,
adding `+1` per `UPVOTE` and `-1` per `DOWNVOTE`. -/
def calculateVoteCount (votes : List Vote) : Int :=
  votes.foldl (fun count v => count + (if v.voteType = VoteType.UPVOTE then 1 else -1)) 0

/-- `getUserVote` from `resolvers/utils.ts`: the caller's vote direction on a
target, if any. -/
def getUserVote (votes : List Vote) (userId : String) : Option VoteType :=
  (votes.find? (fun v => decide (v.userId = userId))).map (fun v => v.voteType)

/-- `isPostBookmarked` from `resolvers/utils.ts`. -/
def isPostBookmarked (bookmarks : List Bookmark) (userId : String) : Bool :=
  bookmarks.any (fun b => decide (b.userId = userId))

/-- `targetType.toLowerCase()` in `voteResolvers.ts`: the database enum value
published with vote events and stored on vote rows. -/
def dbTargetType : VotableType → String
  | VotableType.POST => "post"
  | VotableType.COMMENT => "comment"

/-- The vote rows for one target (the `findMany` filter used after every vote
mutation: `votableId` and `votableType` match). -/
def votesForTarget (votes : List Vote) (targetId votableType : String) : List Vote :=
  votes.filter (fun v => decide (v.votableId = targetId ∧ v.votableType = votableType))

/-- The vote rows for one `(user, target)` composite key. -/
def votesForKey (votes : List Vote) (userId targetId votableType : String) : List Vote :=
  votes.filter (fun v =>
    decide (v.userId = userId ∧ v.votableId = targetId ∧ v.votableType = votableType))

/-- Core row transformation of the `vote` mutation: if the caller already has a
vote row for the target, `prisma.vote.update` overwrites its direction in
place; otherwise `prisma.vote.create` inserts a fresh row. -/
def castVoteRows (votes : List Vote) (userId targetId votableType : String)
    (voteType : VoteType) : List Vote :=
  match votes.find? (fun v =>
      decide (v.userId = userId ∧ v.votableId = targetId ∧ v.votableType = votableType)) with
  | some _ =>
      votes.map (fun v =>
        if v.userId = userId ∧ v.votableId = targetId ∧ v.votableType = votableType then
          { v with voteType := voteType }
        else v)
  | none => votes ++ [⟨userId, targetId, votableType, voteType⟩]

/-- Row transformation of `prisma.vote.delete` on the composite unique key. -/
def removeVoteRows (votes : List Vote) (userId targetId votableType : String) : List Vote :=
  votes.filter (fun v =>
    !(decide (v.userId = userId ∧ v.votableId = targetId ∧ v.votableType = votableType)))

/-- GraphQL `VotePayload` returned by the `vote` mutation. -/
structure VotePayload where
  success : Bool
  voteCount : Int
  userVote : Option VoteType
deriving DecidableEq, Repr

/-- Payload published on the `VOTE_UPDATED` channel (`publishVoteUpdated` in
the subscription resolvers).  `targetType` is the lowercase database enum
string; `commentPostId` is set for comment votes so the SSE endpoint can
filter by post. -/
structure VoteUpdatedEvent where
  targetId : String
  targetType : String
  voteCount : Int
  userVote : Option VoteType
  commentPostId : Option String
deriving DecidableEq, Repr

/-- Result of a successful `vote` mutation: the GraphQL payload, the event
published on the bus, and the updated store. -/
structure VoteOutcome where
  payload : VotePayload
  event : VoteUpdatedEvent
  db : DB
deriving DecidableEq, Repr

/-- Shared tail of the `vote` mutation (after the target-existence check):
load the existing vote, update or create, recount all rows for the target,
publish, and return the payload. -/
def voteCore (db : DB) (userId targetId : String) (targetType : VotableType)
    (voteType : VoteType) (commentPostId : Option String) : VoteOutcome :=
  let dbt := dbTargetType targetType
  let votes := castVoteRows db.votes userId targetId dbt voteType
  let allVotes := votesForTarget votes targetId dbt
  let count := calculateVoteCount allVotes
  { payload := { success := true, voteCount := count, userVote := some voteType }
    event := { targetId := targetId, targetType := dbt, voteCount := count
               userVote := some voteType, commentPostId := commentPostId }
    db := { db with votes := votes } }

/-- The `vote` mutation from `voteResolvers.ts`, for an authenticated caller
`userId`.  The enum-validity checks of the source are tautological here since
the arguments are typed enums. -/
def voteMutation (db : DB) (userId targetId : String) (targetType : VotableType)
    (voteType : VoteType) : Except GQLError VoteOutcome :=
  match targetType with
  | VotableType.POST =>
      match postLoad db targetId with
      | none => Except.error (GQLError.notFound "Post not found")
      | some _ => Except.ok (voteCore db userId targetId targetType voteType none)
  | VotableType.COMMENT =>
      match commentLoad db targetId with
      | none => Except.error (GQLError.notFound "Comment not found")
      | some c => Except.ok (voteCore db userId targetId targetType voteType c.postId)

/-- Result of a successful `removeVote` mutation: the boolean result, the
published event, and the updated store. -/
structure RemoveVoteOutcome where
  result : Bool
  event : VoteUpdatedEvent
  db : DB
deriving DecidableEq, Repr

/-- The `removeVote` mutation from `voteResolvers.ts`: the vote must exist
(absence is a NotFound failure), the row is deleted, the remaining rows are
recounted and published with `userVote = null`. -/
def removeVoteMutation (db : DB) (userId targetId : String) (targetType : VotableType) :
    Except GQLError RemoveVoteOutcome :=
  let dbt := dbTargetType targetType
  match voteLoad db userId targetId dbt with
  | none => Except.error (GQLError.notFound "Vote not found")
  | some _ =>
      let votes := removeVoteRows db.votes userId targetId dbt
      let commentPostId :=
        match targetType with
        | VotableType.COMMENT => (commentLoad db targetId).bind (fun c => c.postId)
        | VotableType.POST => none
      let remaining := votesForTarget votes targetId dbt
      Except.ok
        { result := true
          event := { targetId := targetId, targetType := dbt
                     voteCount := calculateVoteCount remaining
                     userVote := none, commentPostId := commentPostId }
          db := { db with votes := votes } }

/-- The `unbookmarkPost` mutation from `voteResolvers.ts`: when no bookmark
exists the mutation logs and returns `true` (idempotent success); otherwise the
row is deleted. -/
def unbookmarkPost (db : DB) (userId postId : String) : Except GQLError (Bool × DB) :=
  match bookmarkLoad db userId postId with
  | none => Except.ok (true, db)
  | some _ =>
      let bms := db.bookmarks.filter (fun b =>
        !(decide (b.userId = userId ∧ b.postId = postId)))
      Except.ok (true, { db with bookmarks := bms })

/-- One call in a sequence of voting operations by arbitrary users on
arbitrary targets. -/
inductive VoteOp where
  | cast (userId targetId : String) (targetType : VotableType) (voteType : VoteType)
  | remove (userId targetId : String) (targetType : VotableType)
deriving DecidableEq, Repr

/-- Apply one voting operation; a thrown error leaves the store unchanged. -/
def applyVoteOp (db : DB) (op : VoteOp) : DB :=
  match op with
  | VoteOp.cast u t tt vt =>
      match voteMutation db u t tt vt with
      | Except.ok out => out.db
      | Except.error _ => db
  | VoteOp.remove u t tt =>
      match removeVoteMutation db u t tt with
      | Except.ok out => out.db
      | Except.error _ => db

/-- Apply a sequence of voting operations in order. -/
def applyVoteOps (db : DB) (ops : List VoteOp) : DB :=
  ops.foldl applyVoteOp db

/-- Composite unique key of a vote row (the `userId_votableId_votableType`
unique constraint of the `votes` table). -/
def voteKeyOf (v : Vote) : String × String × String :=
  (v.userId, v.votableId, v.votableType)

/-- Key-uniqueness of the vote table, phrased as no duplicate among the
composite keys (this is what the storage-level unique constraint provides).
Decidable, so concrete stores can be checked by evaluation. -/
def UniqueVoteKeys (votes : List Vote) : Prop :=
  (votes.map voteKeyOf).Nodup

instance (votes : List Vote) : Decidable (UniqueVoteKeys votes) := by
  unfold UniqueVoteKeys
  infer_instance

/-- Ordering modes of the `posts` query. -/
inductive PostOrder where
  | NEWEST
  | OLDEST
  | TRENDING
  | TOP
deriving DecidableEq, Repr

/-- Ordering modes of the `comments` query. -/
inductive CommentOrder where
  | NEWEST
  | OLDEST
  | TOP
deriving DecidableEq, Repr

/-- Insert into a list sorted by `le` (deterministic model of the database
sort; ties between rows keep a fixed relative order). -/
def orderedInsert (le : α → α → Bool) (a : α) : List α → List α
  | [] => [a]
  | b :: l => if le a b then a :: b :: l else b :: orderedInsert le a l

/-- Sort a list of rows by `le` (models the `ORDER BY` clause of a
`findMany`). -/
def sortRows (le : α → α → Bool) (l : List α) : List α :=
  l.foldr (orderedInsert le) []

/-- Page-size computation of the `posts` query:
`Math.min(Math.max(first || 10, 1), 50)`.  `first || 10` is JavaScript
truthiness, so an explicit `0` falls back to the default `10`. -/
def postsLimit (first : Option Int) : Int :=
  min (max (match first with
            | none => 10
            | some f => if f = 0 then 10 else f) 1) 50

/-- Connection page info (`PageInfo` in the GraphQL schema).  Cursors of the
posts feed serialize the row's `createdAt` timestamp. -/
structure PostsPageInfo where
  hasNextPage : Bool
  hasPreviousPage : Bool
  startCursor : Option Nat
  endCursor : Option Nat
deriving DecidableEq, Repr

/-- Result of the `posts` query: edges pair each post with its cursor (the
ISO serialization of `createdAt`, modelled by the timestamp itself). -/
structure PostsConnection where
  edges : List (Post × Nat)
  pageInfo : PostsPageInfo
  totalCount : Nat
deriving DecidableEq, Repr

/-- Row ordering of the `posts` query (`ORDER BY` switch of the source; the
tie order between equal keys is left to the store, modelled deterministically
by `sortRows`). -/
def sortPosts (orderBy : PostOrder) (l : List Post) : List Post :=
  match orderBy with
  | PostOrder.NEWEST => sortRows (fun a b => decide (b.createdAt ≤ a.createdAt)) l
  | PostOrder.OLDEST => sortRows (fun a b => decide (a.createdAt ≤ b.createdAt)) l
  | PostOrder.TRENDING =>
      sortRows (fun a b =>
        decide (a.views.getD 0 > b.views.getD 0 ∨
          (a.views.getD 0 = b.views.getD 0 ∧ b.createdAt ≤ a.createdAt))) l
  | PostOrder.TOP => sortRows (fun a b => decide (b.views.getD 0 ≤ a.views.getD 0)) l

/-- The `posts` query from `postResolvers.ts` (topic, author and search
filters are omitted: the claims under verification pass none of them).  The
cursor condition is `createdAt < cursor` alone; one extra row is fetched to
compute `hasNextPage`, and `hasPreviousPage` is `!!after`. -/
def postsQuery (db : DB) (orderBy : PostOrder) (first : Option Int) (after : Option Nat) :
    PostsConnection :=
  let limit := (postsLimit first).toNat
  let base := db.posts.filter (fun p =>
    decide (p.deletedAt = none) &&
      (match after with
       | some cursor => decide (p.createdAt < cursor)
       | none => true))
  let sorted := sortPosts orderBy base
  let taken := sorted.take (limit + 1)
  let hasNext := decide (taken.length > limit)
  let page := if hasNext then taken.dropLast else taken
  let edges := page.map (fun p => (p, p.createdAt))
  { edges := edges
    pageInfo :=
      { hasNextPage := hasNext
        hasPreviousPage := after.isSome
        startCursor := (edges.head?).map (fun e => e.2)
        endCursor := (edges.getLast?).map (fun e => e.2) }
    totalCount := base.length }

/-- The comment rows of one post visible to the `comments` query
(`postId` matches and not soft-deleted). -/
def commentsForPost (db : DB) (postId : String) : List Comment :=
  db.comments.filter (fun c => decide (c.postId = some postId ∧ c.deletedAt = none))

/-- Row ordering of the `comments` query: `NEWEST` is `createdAt` descending,
`OLDEST` ascending, `TOP` is depth ascending then `createdAt` descending. -/
def sortComments (orderBy : CommentOrder) (l : List Comment) : List Comment :=
  match orderBy with
  | CommentOrder.NEWEST => sortRows (fun a b => decide (b.createdAt ≤ a.createdAt)) l
  | CommentOrder.OLDEST => sortRows (fun a b => decide (a.createdAt ≤ b.createdAt)) l
  | CommentOrder.TOP =>
      sortRows (fun a b =>
        decide (a.depth < b.depth ∨ (a.depth = b.depth ∧ b.createdAt ≤ a.createdAt))) l

/-- Result of the `comments` query: cursors are comment ids (the source uses
the row id as cursor together with Prisma positional `cursor`/`skip`). -/
structure CommentsPageInfo where
  hasNextPage : Bool
  hasPreviousPage : Bool
  startCursor : Option String
  endCursor : Option String
deriving DecidableEq, Repr

structure CommentsConnection where
  edges : List (Comment × String)
  pageInfo : CommentsPageInfo
  totalCount : Nat
deriving DecidableEq, Repr

instance : Inhabited CommentsConnection :=
  ⟨{ edges := [], pageInfo := ⟨false, false, none, none⟩, totalCount := 0 }⟩

/-- Prisma `cursor: { id: after }, skip: 1` positioning: resume right after
the row with the cursor id in the ordered output (no rows when the cursor row
is absent). -/
def positionAfterId (after : Option String) (l : List Comment) : List Comment :=
  match after with
  | none => l
  | some id =>
      match l.findIdx? (fun c => decide (c.id = id)) with
      | none => []
      | some i => l.drop (i + 1)

/-- The `comments` query from `commentResolvers.ts`.  Note that `first` is
used directly as the page size (`take: first + 1`) with no clamping. -/
def commentsQuery (db : DB) (postId : String) (first : Int) (after : Option String)
    (orderBy : CommentOrder) : Except GQLError CommentsConnection :=
  match postLoad db postId with
  | none => Except.error (GQLError.notFound "Post not found")
  | some _ =>
      let sorted := sortComments orderBy (commentsForPost db postId)
      let positioned := positionAfterId after sorted
      let taken := positioned.take (first + 1).toNat
      let hasNext := decide ((taken.length : Int) > first)
      let page := if hasNext then taken.dropLast else taken
      let edges := page.map (fun c => (c, c.id))
      Except.ok
        { edges := edges
          pageInfo :=
            { hasNextPage := hasNext
              hasPreviousPage := after.isSome
              startCursor := (page.head?).map (fun c => c.id)
              endCursor := (page.getLast?).map (fun c => c.id) }
          totalCount := (commentsForPost db postId).length }

/-- JavaScript `String.prototype.trim`: strip leading and trailing whitespace
(written over the character list so concrete instances evaluate). -/
def jsTrim (s : String) : String :=
  String.mk (((s.data.dropWhile Char.isWhitespace).reverse.dropWhile
    Char.isWhitespace).reverse)

/-- The `createComment` mutation from `commentResolvers.ts`, for an
authenticated caller.  `newId` and `now` stand for the id and timestamp the
store generates for the inserted row.  Note that the insert sets no `path`
(the `update_comment_path` trigger is dropped by
`database/temporarily-disable-ltree-trigger.sql`, which leaves the column
NULL). -/
def createComment (db : DB) (userId newId : String) (now : Nat) (postId : String)
    (parentId : Option String) (content : String) : Except GQLError (Comment × DB) :=
  if jsTrim content = "" then
    Except.error (GQLError.validation "Content is required")
  else if content.length > 10000 then
    Except.error (GQLError.validation "Content must be less than 10,000 characters")
  else
    match postLoad db postId with
    | none => Except.error (GQLError.notFound "Post not found")
    | some _ =>
        let insert := fun (depth : Int) =>
          let c : Comment :=
            { id := newId, postId := some postId, parentId := parentId
              authorId := userId, content := jsTrim content, depth := depth
              path := none, isEdited := false
              createdAt := now, updatedAt := now, deletedAt := none }
          Except.ok (c, { db with comments := db.comments ++ [c] })
        match parentId with
        | none => insert 0
        | some pid =>
            match commentLoad db pid with
            | none => Except.error (GQLError.notFound "Parent comment not found")
            | some parent =>
                if parent.postId ≠ some postId then
                  Except.error
                    (GQLError.validation "Parent comment must belong to the same post")
                else
                  let depth := parent.depth + 1
                  if depth > 5 then
                    Except.error
                      (GQLError.validation "Comment nesting too deep (maximum 5 levels)")
                  else insert depth

/-- Transliteration of the fixed `update_comment_path` trigger in
`database/demo.sql`: a comment id becomes a valid ltree label by stripping the
hyphen separators and prefixing the tag `c`. -/
def encodeLtreeLabel (id : String) : String :=
  "c" ++ String.mk (id.data.filter (fun ch => decide (ch ≠ '-')))

/-- Path computation of the fixed `update_comment_path` trigger in
`database/demo.sql`: a top-level comment's path is its own encoded label, a
child's path is the parent's path, a dot, and the child's encoded label. -/
def triggerPath (parentPath : Option String) (selfId : String) : String :=
  match parentPath with
  | none => encodeLtreeLabel selfId
  | some pp => pp ++ "." ++ encodeLtreeLabel selfId

/-- Value stored per typing user in `typingResolvers.ts`
(`{ username, lastTyping }`). -/
structure TypingData where
  username : String
  lastTyping : Nat
deriving DecidableEq, Repr

/-- The module-level `typingUsers` map: post id to (user id to typing data).
JavaScript `Map`s are modelled as association lists with unique keys. -/
abbrev TypingMap := List (String × List (String × TypingData))

/-- Idle threshold of the typing tracker (5000 ms in the source). -/
def typingTimeout : Nat := 5000

/-- The `getTypingUsers` query from `typingResolvers.ts`: read the post's
entry map and keep only users whose last signal is within the idle threshold
at query time.  (`now - lastTyping <= timeout` also holds in JavaScript when
`lastTyping` is in the future, matching truncated subtraction on `Nat`.)
Returns `(userId, username)` pairs. -/
def getTypingUsers (m : TypingMap) (postId : String) (now : Nat) :
    List (String × String) :=
  match m.lookup postId with
  | none => []
  | some users =>
      (users.filter (fun e => decide (now - e.2.lastTyping ≤ typingTimeout))).map
        (fun e => (e.1, e.2.username))

/-- The periodic `cleanupTypingUsers` sweep from `typingResolvers.ts`: drop
entries older than the idle threshold, then drop post maps left empty. -/
def cleanupTypingUsers (m : TypingMap) (now : Nat) : TypingMap :=
  (m.map (fun e =>
    (e.1, e.2.filter (fun u => decide (now - u.2.lastTyping ≤ typingTimeout))))).filter
    (fun e => !e.2.isEmpty)

/-- Payload published on the `COMMENT_ADDED` channel. -/
structure CommentAddedEvent where
  id : String
  postId : String
  parentId : Option String
deriving DecidableEq, Repr

/-- Payload published on the `COMMENT_DELETED` channel. -/
structure CommentDeletedEvent where
  id : String
  postId : String
  parentId : Option String
deriving DecidableEq, Repr

/-- Payload published on the `POST_UPDATED` channel (the updated post). -/
structure PostUpdatedEvent where
  id : String
deriving DecidableEq, Repr

/-- Payload published on the `USER_TYPING` channel. -/
structure UserTypingEvent where
  userId : String
  username : String
  postId : String
deriving DecidableEq, Repr

/-- Variables of the `voteUpdated` GraphQL subscription
(`voteUpdated(postId, commentId)`, both optional). -/
structure VoteSubVars where
  postId : Option String
  commentId : Option String
deriving DecidableEq, Repr

/-- Filter of the `commentAdded` subscription: deliver when the payload's
post id equals the subscribed post id. -/
def commentAddedSubFilter (e : CommentAddedEvent) (postId : String) : Bool :=
  decide (e.postId = postId)

/-- Filter of the `postUpdated` subscription: deliver when the updated post's
id equals the subscribed post id. -/
def postUpdatedSubFilter (e : PostUpdatedEvent) (postId : String) : Bool :=
  decide (e.id = postId)

/-- Filter of the `userTyping` subscription. -/
def userTypingSubFilter (e : UserTypingEvent) (postId : String) : Bool :=
  decide (e.postId = postId)

/-- Filter of the `voteUpdated` subscription, exactly as written in the
subscription resolvers: with a `postId` variable it requires
`payload.targetType === 'POST'`, with a `commentId` variable
`payload.targetType === 'COMMENT'` (uppercase comparisons), and the matching
target id. -/
def voteUpdatedSubFilter (e : VoteUpdatedEvent) (vars : VoteSubVars) : Bool :=
  match vars.postId with
  | some pid => decide (e.targetType = "POST") && decide (e.targetId = pid)
  | none =>
      match vars.commentId with
      | some cid => decide (e.targetType = "COMMENT") && decide (e.targetId = cid)
      | none => false

/-- Vote filter of the SSE endpoint `/api/posts/:postId/events`: a post vote
matches on the target id, a comment vote on the carried `commentPostId`
(lowercase comparisons, matching the published payload). -/
def sseVoteFilter (e : VoteUpdatedEvent) (postId : String) : Bool :=
  (decide (e.targetType = "post") && decide (e.targetId = postId)) ||
  (decide (e.targetType = "comment") && decide (e.commentPostId = some postId))

/-- Comment-added filter of the SSE endpoint: the comment's post id must equal
the connection's post id. -/
def sseCommentAddedFilter (e : CommentAddedEvent) (postId : String) : Bool :=
  decide (e.postId = postId)

/-- Comment-deleted filter of the SSE endpoint. -/
def sseCommentDeletedFilter (e : CommentDeletedEvent) (postId : String) : Bool :=
  decide (e.postId = postId)

/-- Vote event carried by the bus concerning post `A`: either a vote on the
post itself or a vote on a comment whose parent post is `A` (such events carry
`commentPostId`; the published `targetType` is the lowercase enum). -/
def voteEventForPost (e : VoteUpdatedEvent) (A : String) : Prop :=
  (e.targetType = "post" ∧ e.targetId = A) ∨
  (e.targetType = "comment" ∧ e.commentPostId = some A)

/-- GraphQL node returned by the `post(id)` query. -/
structure PostNode where
  id : String
  title : String
  content : String
  threadType : String
  views : Nat
  isPinned : Bool
  isLocked : Bool
  createdAt : Nat
  updatedAt : Nat
  authorId : String
  voteCount : Int
  userVote : Option VoteType
  bookmarked : Bool
deriving DecidableEq, Repr

/-- Store-side effect of `prisma.post.update({ data: { views: { increment: 1
} } })` on the matched row, combined with the `update_posts_updated_at`
trigger of `database/schema.sql` (a `BEFORE UPDATE` trigger that sets
`updated_at` to the current timestamp on every update).  SQL `NULL + 1` is
`NULL`, so a null counter stays null. -/
def bumpViews (p : Post) (now : Nat) : Post :=
  { p with views := p.views.map (fun v => v + 1), updatedAt := now }

/-- Audit row inserted by `audit_posts_trigger` (`AFTER INSERT OR UPDATE OR
DELETE ON posts`) for one updated posts row: action `TG_OP = 'UPDATE'`, the
table name, `record_id = NEW.id`, and the old and new row snapshots; the
`app.current_user_id` setting is never set by this backend, so `user_id` is
NULL. -/
def postUpdateAuditRow (oldRow newRow : Post) : AuditLog :=
  { userId := none, action := "UPDATE", tableName := "posts"
    recordId := newRow.id, oldData := some oldRow, newData := some newRow }

/-- The `post(id)` query from `postResolvers.ts`: load the post through the
loader (absent and soft-deleted rows both yield NotFound), increment its view
counter, and return the node with `views` computed as `(post.views ?? 0) + 1`
from the pre-update row.  The `UPDATE` on `posts` fires, per affected row,
both the `update_posts_updated_at` trigger (folded into `bumpViews`) and the
`audit_posts_trigger`, which inserts one `audit_logs` row. -/
def postQuery (db : DB) (id : String) (now : Nat) (user : Option String) :
    Except GQLError (PostNode × DB) :=
  match postLoad db id with
  | none => Except.error (GQLError.notFound "Post not found")
  | some post =>
      let posts := db.posts.map (fun p => if p.id = id then bumpViews p now else p)
      let audit := (db.posts.filter (fun p => decide (p.id = id))).map
        (fun p => postUpdateAuditRow p (bumpViews p now))
      let votes := votesForTarget db.votes id "post"
      let bookmarks := db.bookmarks.filter (fun b => decide (b.postId = id))
      let node : PostNode :=
        { id := post.id, title := post.title, content := post.content
          threadType := post.threadType
          views := post.views.getD 0 + 1
          isPinned := post.isPinned, isLocked := post.isLocked
          createdAt := post.createdAt, updatedAt := post.updatedAt
          authorId := post.authorId
          voteCount := calculateVoteCount votes
          userVote := match user with
                      | some u => getUserVote votes u
                      | none => none
          bookmarked := match user with
                        | some u => isPostBookmarked bookmarks u
                        | none => false }
      Except.ok (node, { db with posts := posts, auditLogs := db.auditLogs ++ audit })

/-- Number of `UPVOTE` rows in a list. -/
def upvoteCount (votes : List Vote) : Nat :=
  (votes.filter (fun v => decide (v.voteType = VoteType.UPVOTE))).length

/-- Number of `DOWNVOTE` rows in a list. -/
def downvoteCount (votes : List Vote) : Nat :=
  (votes.filter (fun v => decide (v.voteType = VoteType.DOWNVOTE))).length

theorem calculateVoteCount_foldl (votes : List Vote) : ∀ c : Int,
    votes.foldl (fun count v => count + (if v.voteType = VoteType.UPVOTE then 1 else -1)) c
      = c + (upvoteCount votes : Int) - (downvoteCount votes : Int) := by
  induction votes with
  | nil => intro c; simp [upvoteCount, downvoteCount]
  | cons v rest ih =>
      intro c
      simp only [List.foldl_cons, ih, upvoteCount, downvoteCount, List.filter_cons]
      cases hv : v.voteType <;> simp [hv] <;> ring

/-- The running reduce of `calculateVoteCount` equals the count of upvote
rows minus the count of downvote rows. -/
theorem calculateVoteCount_eq (votes : List Vote) :
    calculateVoteCount votes = (upvoteCount votes : Int) - (downvoteCount votes : Int) := by
  unfold calculateVoteCount
  rw [calculateVoteCount_foldl]
  ring

theorem castVoteRows_unique (votes : List Vote) (u t ty : String) (vt : VoteType)
    (h : UniqueVoteKeys votes) : UniqueVoteKeys (castVoteRows votes u t ty vt) := by
  unfold UniqueVoteKeys castVoteRows
  cases hf : votes.find? (fun v =>
      decide (v.userId = u ∧ v.votableId = t ∧ v.votableType = ty)) with
  | some w =>
      have hmap : (votes.map (fun v =>
          if v.userId = u ∧ v.votableId = t ∧ v.votableType = ty then
            { v with voteType := vt } else v)).map voteKeyOf = votes.map voteKeyOf := by
        rw [List.map_map]
        apply List.map_congr_left
        intro v _
        by_cases hv : v.userId = u ∧ v.votableId = t ∧ v.votableType = ty
        · simp [hv, voteKeyOf]
        · simp [hv]
      rw [hmap]
      exact h
  | none =>
      have hnone : ∀ v ∈ votes, ¬(v.userId = u ∧ v.votableId = t ∧ v.votableType = ty) := by
        intro v hv
        have := List.find?_eq_none.mp hf v hv
        simpa using this
      rw [List.map_append]
      rw [List.nodup_append]
      refine ⟨h, by simp, ?_⟩
      intro a ha hb
      simp only [List.map_cons, List.map_nil, List.mem_singleton] at hb
      subst hb
      simp only [List.mem_map] at ha
      obtain ⟨v, hv, hkey⟩ := ha
      have : v.userId = u ∧ v.votableId = t ∧ v.votableType = ty := by
        unfold voteKeyOf at hkey
        simp only [Prod.mk.injEq] at hkey
        exact ⟨hkey.1, hkey.2.1, hkey.2.2⟩
      exact hnone v hv this

theorem removeVoteRows_unique (votes : List Vote) (u t ty : String)
    (h : UniqueVoteKeys votes) : UniqueVoteKeys (removeVoteRows votes u t ty) := by
  unfold UniqueVoteKeys removeVoteRows
  unfold UniqueVoteKeys at h
  exact ((List.filter_sublist votes).map voteKeyOf).nodup h

/-- With unique composite keys, each `(user, target)` pair owns at most one
row. -/
theorem unique_votesForKey_le_one (votes : List Vote) (h : UniqueVoteKeys votes)
    (u t ty : String) : (votesForKey votes u t ty).length ≤ 1 := by
  unfold votesForKey
  induction votes with
  | nil => simp
  | cons v rest ih =>
      unfold UniqueVoteKeys at h
      simp only [List.map_cons, List.nodup_cons] at h
      obtain ⟨hnotin, hrest⟩ := h
      rw [List.filter_cons]
      by_cases hv : v.userId = u ∧ v.votableId = t ∧ v.votableType = ty
      · have hempty : rest.filter (fun v =>
            decide (v.userId = u ∧ v.votableId = t ∧ v.votableType = ty)) = [] := by
          rw [List.filter_eq_nil_iff]
          intro w hw
          simp only [decide_eq_true_eq]
          intro hw2
          apply hnotin
          rw [List.mem_map]
          refine ⟨w, hw, ?_⟩
          unfold voteKeyOf
          simp [hv.1, hv.2.1, hv.2.2, hw2.1, hw2.2.1, hw2.2.2]
        rw [decide_eq_true hv, if_pos rfl, hempty]
        simp
      · rw [decide_eq_false hv]
        simp only [Bool.false_eq_true, if_false]
        exact ih hrest

theorem voteMutation_ok (db : DB) (u t : String) (tt : VotableType) (vt : VoteType)
    (out : VoteOutcome) (h : voteMutation db u t tt vt = Except.ok out) :
    out.db.votes = castVoteRows db.votes u t (dbTargetType tt) vt ∧
    out.payload.voteCount =
      calculateVoteCount (votesForTarget out.db.votes t (dbTargetType tt)) := by
  unfold voteMutation at h
  cases tt with
  | POST =>
      cases hp : postLoad db t with
      | none => rw [hp] at h; exact absurd h (by simp)
      | some post =>
          rw [hp] at h
          simp only [Except.ok.injEq] at h
          subst h
          exact ⟨rfl, rfl⟩
  | COMMENT =>
      cases hp : commentLoad db t with
      | none => rw [hp] at h; exact absurd h (by simp)
      | some c =>
          rw [hp] at h
          simp only [Except.ok.injEq] at h
          subst h
          exact ⟨rfl, rfl⟩

theorem removeVoteMutation_ok (db : DB) (u t : String) (tt : VotableType)
    (out : RemoveVoteOutcome) (h : removeVoteMutation db u t tt = Except.ok out) :
    out.db.votes = removeVoteRows db.votes u t (dbTargetType tt) ∧
    out.event.voteCount =
      calculateVoteCount (votesForTarget out.db.votes t (dbTargetType tt)) := by
  unfold removeVoteMutation at h
  cases hv : voteLoad db u t (dbTargetType tt) with
  | none =>
      simp only [hv] at h
      exact absurd h (by simp)
  | some w =>
      simp only [hv, Except.ok.injEq] at h
      subst h
      exact ⟨rfl, rfl⟩

theorem applyVoteOp_unique (db : DB) (op : VoteOp) (h : UniqueVoteKeys db.votes) :
    UniqueVoteKeys (applyVoteOp db op).votes := by
  cases op with
  | cast u t tt vt =>
      simp only [applyVoteOp]
      cases hm : voteMutation db u t tt vt with
      | ok out =>
          show UniqueVoteKeys out.db.votes
          rw [(voteMutation_ok db u t tt vt out hm).1]
          exact castVoteRows_unique db.votes u t (dbTargetType tt) vt h
      | error e => exact h
  | remove u t tt =>
      simp only [applyVoteOp]
      cases hm : removeVoteMutation db u t tt with
      | ok out =>
          show UniqueVoteKeys out.db.votes
          rw [(removeVoteMutation_ok db u t tt out hm).1]
          exact removeVoteRows_unique db.votes u t (dbTargetType tt) h
      | error e => exact h

theorem applyVoteOps_unique (db : DB) (ops : List VoteOp) (h : UniqueVoteKeys db.votes) :
    UniqueVoteKeys (applyVoteOps db ops).votes := by
  induction ops generalizing db with
  | nil => exact h
  | cons op rest ih =>
      have hstep : applyVoteOps db (op :: rest) = applyVoteOps (applyVoteOp db op) rest := rfl
      rw [hstep]
      exact ih (applyVoteOp db op) (applyVoteOp_unique db op h)

/-- C1: after any sequence of `vote`/`removeVote` calls starting from a store
whose vote table satisfies the composite unique constraint, (a) every
`(user, target)` pair owns at most one vote row, and (b) the `voteCount`
returned by a further `vote` call — and the one published by a further
`removeVote` call — equals the live sum over all rows for that target of `+1`
per `UPVOTE` and `-1` per `DOWNVOTE`. -/
theorem vote_sequence_at_most_one_row_and_live_count
    (db : DB) (ops : List VoteOp) (h : UniqueVoteKeys db.votes) :
    (∀ u t ty, (votesForKey (applyVoteOps db ops).votes u t ty).length ≤ 1) ∧
    (∀ u t tt vt out,
      voteMutation (applyVoteOps db ops) u t tt vt = Except.ok out →
        out.payload.voteCount =
          (upvoteCount (votesForTarget out.db.votes t (dbTargetType tt)) : Int) -
            (downvoteCount (votesForTarget out.db.votes t (dbTargetType tt)) : Int)) ∧
    (∀ u t tt out,
      removeVoteMutation (applyVoteOps db ops) u t tt = Except.ok out →
        out.event.voteCount =
          (upvoteCount (votesForTarget out.db.votes t (dbTargetType tt)) : Int) -
            (downvoteCount (votesForTarget out.db.votes t (dbTargetType tt)) : Int)) := by
  refine ⟨?_, ?_, ?_⟩
  · intro u t ty
    exact unique_votesForKey_le_one _ (applyVoteOps_unique db ops h) u t ty
  · intro u t tt vt out hm
    rw [(voteMutation_ok _ u t tt vt out hm).2]
    exact calculateVoteCount_eq _
  · intro u t tt out hm
    rw [(removeVoteMutation_ok _ u t tt out hm).2]
    exact calculateVoteCount_eq _

/-- Concrete non-deleted post used by the example stores. -/
def postEx : Post :=
  { id := "p1", authorId := "u1", title := "t", content := "body"
    threadType := "DISCUSSION", views := some 0, isPinned := false, isLocked := false
    createdAt := 100, updatedAt := 0, deletedAt := none }

/-- Empty store. -/
def dbEmpty : DB := { posts := [], comments := [], votes := [], bookmarks := [] }

/-- Store holding exactly the post `p1`. -/
def dbPostOnly : DB := { posts := [postEx], comments := [], votes := [], bookmarks := [] }

/-- Example voting history: two users vote on `p1`, one removes, one flips. -/
def voteOpsEx : List VoteOp :=
  [VoteOp.cast "u2" "p1" VotableType.POST VoteType.UPVOTE,
   VoteOp.cast "u3" "p1" VotableType.POST VoteType.DOWNVOTE,
   VoteOp.remove "u2" "p1" VotableType.POST,
   VoteOp.cast "u2" "p1" VotableType.POST VoteType.UPVOTE,
   VoteOp.cast "u2" "p1" VotableType.POST VoteType.DOWNVOTE]

theorem vote_sequence_witness :
    (votesForKey (applyVoteOps dbPostOnly voteOpsEx).votes "u2" "p1" "post").length ≤ 1 :=
  (vote_sequence_at_most_one_row_and_live_count dbPostOnly voteOpsEx (by decide)).1
    "u2" "p1" "post"

/-- C7: `removeVote` by a user with no existing vote on the target throws
NotFound (the mutation returns an error, so the store is left untouched),
while `unbookmarkPost` by a user with no existing bookmark returns `true` with
the store unchanged. -/
theorem removeVote_notFound_unbookmark_idempotent
    (db : DB) (u t postId : String) (tt : VotableType)
    (hv : voteLoad db u t (dbTargetType tt) = none)
    (hb : bookmarkLoad db u postId = none) :
    removeVoteMutation db u t tt = Except.error (GQLError.notFound "Vote not found") ∧
    unbookmarkPost db u postId = Except.ok (true, db) := by
  constructor
  · unfold removeVoteMutation
    simp only [hv]
  · unfold unbookmarkPost
    simp only [hb]

theorem removeVote_unbookmark_witness :
    removeVoteMutation dbEmpty "u1" "p1" VotableType.POST =
      Except.error (GQLError.notFound "Vote not found") ∧
    unbookmarkPost dbEmpty "u1" "p1" = Except.ok (true, dbEmpty) :=
  removeVote_notFound_unbookmark_idempotent dbEmpty "u1" "p1" "p1" VotableType.POST
    (by decide) (by decide)

/-- C4: a parent at the depth cap of 5 makes `createComment` fail validation,
a parent at depth 4 yields a comment of depth 5, a comment without parent has
depth 0, and no successfully created comment ever has depth above 5. -/
theorem createComment_depth_rules
    (db : DB) (u newId : String) (now : Nat) (postId pid content : String)
    (post : Post) (parent : Comment)
    (hc1 : ¬ jsTrim content = "") (hc2 : content.length ≤ 10000)
    (hp : postLoad db postId = some post)
    (hpar : commentLoad db pid = some parent)
    (hsame : parent.postId = some postId) :
    (parent.depth = 5 →
      createComment db u newId now postId (some pid) content =
        Except.error (GQLError.validation "Comment nesting too deep (maximum 5 levels)")) ∧
    (parent.depth = 4 →
      ∃ c db2, createComment db u newId now postId (some pid) content = Except.ok (c, db2) ∧
        c.depth = 5) ∧
    (∃ c db2, createComment db u newId now postId none content = Except.ok (c, db2) ∧
      c.depth = 0) ∧
    (∀ (db3 : DB) (u3 id3 : String) (now3 : Nat) (post3 : String) (pid3 : Option String)
        (content3 : String) (c : Comment) (db4 : DB),
      createComment db3 u3 id3 now3 post3 pid3 content3 = Except.ok (c, db4) →
        c.depth ≤ 5) := by
  have hc2' : ¬ content.length > 10000 := by omega
  refine ⟨?_, ?_, ?_, ?_⟩
  · intro hd
    unfold createComment
    simp only [if_neg hc1, if_neg hc2', hp, hpar, hsame, ne_eq, not_true_eq_false, if_false,
      hd]
    norm_num
  · intro hd
    unfold createComment
    simp only [if_neg hc1, if_neg hc2', hp, hpar, hsame, ne_eq, not_true_eq_false, if_false,
      hd]
    norm_num
  · unfold createComment
    simp only [if_neg hc1, if_neg hc2', hp]
    exact ⟨_, _, rfl, rfl⟩
  · intro db3 u3 id3 now3 post3 pid3 content3 c db4 hok
    unfold createComment at hok
    by_cases h1 : jsTrim content3 = ""
    · simp only [if_pos h1] at hok
      exact absurd hok (by simp)
    · simp only [if_neg h1] at hok
      by_cases h2 : content3.length > 10000
      · simp only [if_pos h2] at hok
        exact absurd hok (by simp)
      · simp only [if_neg h2] at hok
        cases hpl : postLoad db3 post3 with
        | none =>
            simp only [hpl] at hok
            exact absurd hok (by simp)
        | some post3row =>
            simp only [hpl] at hok
            cases pid3 with
            | none =>
                simp only [Except.ok.injEq, Prod.mk.injEq] at hok
                have : c.depth = 0 := by rw [← hok.1]
                omega
            | some pid3v =>
                cases hcl : commentLoad db3 pid3v with
                | none =>
                    simp only [hcl] at hok
                    exact absurd hok (by simp)
                | some parent3 =>
                    simp only [hcl] at hok
                    by_cases h3 : parent3.postId ≠ some post3
                    · simp only [if_pos h3] at hok
                      exact absurd hok (by simp)
                    · simp only [if_neg h3] at hok
                      by_cases h4 : parent3.depth + 1 > 5
                      · simp only [if_pos h4] at hok
                        exact absurd hok (by simp)
                      · simp only [if_neg h4] at hok
                        simp only [Except.ok.injEq, Prod.mk.injEq] at hok
                        have : c.depth = parent3.depth + 1 := by rw [← hok.1]
                        omega

/-- Comment of depth 5 under post `p1` (at the nesting cap). -/
def commentDepth5Ex : Comment :=
  { id := "c5", postId := some "p1", parentId := some "c4", authorId := "u1"
    content := "deep", depth := 5, path := none, isEdited := false
    createdAt := 50, updatedAt := 50, deletedAt := none }

/-- Comment of depth 4 under post `p1`. -/
def commentDepth4Ex : Comment :=
  { id := "c4", postId := some "p1", parentId := some "c3", authorId := "u1"
    content := "deep", depth := 4, path := none, isEdited := false
    createdAt := 40, updatedAt := 40, deletedAt := none }

/-- Store with post `p1` and comments at depths 4 and 5. -/
def dbDepthEx : DB :=
  { posts := [postEx], comments := [commentDepth4Ex, commentDepth5Ex]
    votes := [], bookmarks := [] }

theorem createComment_depth_witness :
    createComment dbDepthEx "u2" "n1" 3 "p1" (some "c5") "hello" =
      Except.error (GQLError.validation "Comment nesting too deep (maximum 5 levels)") :=
  (createComment_depth_rules dbDepthEx "u2" "n1" 3 "p1" "c5" "hello" postEx commentDepth5Ex
    (by decide) (by decide) (by decide) (by decide) (by decide)).1 (by decide)

/-- Root comment of post `p1` carrying the ltree path the reference trigger
would have produced for it. -/
def commentRootEx : Comment :=
  { id := "a1", postId := some "p1", parentId := none, authorId := "u1"
    content := "root", depth := 0, path := some "ca1", isEdited := false
    createdAt := 10, updatedAt := 10, deletedAt := none }

/-- Store with post `p1` and its root comment `a1`. -/
def dbPathEx : DB :=
  { posts := [postEx], comments := [commentRootEx], votes := [], bookmarks := [] }

/-- C6: the insert performed by `createComment` stores no materialized path at
all (the column stays NULL because the resolver sets no `path` and the
`update_comment_path` trigger is dropped), while the reference encoding would
store the parent's path, a dot, and the child id transliterated by stripping
the hyphen separators and prefixing the `c` tag. -/
theorem createComment_path_left_null :
    (createComment dbPathEx "u1" "b-2" 7 "p1" (some "a1") "hi").map
      (fun r => r.1.path) = Except.ok none ∧
    triggerPath commentRootEx.path "b-2" = "ca1.cb2" ∧
    (none : Option String) ≠ some "ca1.cb2" := by
  refine ⟨by decide, by decide, by decide⟩

/-- Second non-deleted post sharing `postEx`'s creation timestamp. -/
def postTwinEx : Post :=
  { id := "p2", authorId := "u1", title := "t2", content := "body2"
    threadType := "DISCUSSION", views := some 0, isPinned := false, isLocked := false
    createdAt := 100, updatedAt := 0, deletedAt := none }

/-- Feed of two live posts with identical `createdAt` and distinct ids. -/
def dbTwinPosts : DB :=
  { posts := [postEx, postTwinEx], comments := [], votes := [], bookmarks := [] }

/-- C2: on the posts feed the cursor predicate is `createdAt < cursor` with no
id tie-break, so with two rows sharing the timestamp `100`, page one
(`first = 1`) returns `p1` and reports a next page, but resuming from the
returned `endCursor` returns nothing: `p2` is skipped. -/
theorem posts_pagination_skips_on_equal_timestamps :
    (postsQuery dbTwinPosts PostOrder.NEWEST (some 1) none).pageInfo.hasNextPage = true ∧
    (postsQuery dbTwinPosts PostOrder.NEWEST (some 1) none).edges.map
      (fun e => e.1.id) = ["p1"] ∧
    (postsQuery dbTwinPosts PostOrder.NEWEST (some 1) none).pageInfo.endCursor = some 100 ∧
    (postsQuery dbTwinPosts PostOrder.NEWEST (some 1) (some 100)).edges.map
      (fun e => e.1.id) = [] ∧
    dbTwinPosts.posts.map Post.id = ["p1", "p2"] ∧
    dbTwinPosts.posts.map Post.deletedAt = [none, none] := by
  refine ⟨?_, ?_, ?_, ?_, ?_, ?_⟩ <;> decide

/-- Live comment `c1` belonging to post `p1`. -/
def commentInP1Ex : Comment :=
  { id := "c1", postId := some "p1", parentId := none, authorId := "u1"
    content := "hello", depth := 0, path := none, isEdited := false
    createdAt := 20, updatedAt := 20, deletedAt := none }

/-- Store with post `p1` and its comment `c1`. -/
def dbVoteFilterEx : DB :=
  { posts := [postEx], comments := [commentInP1Ex], votes := [], bookmarks := [] }

/-- C5: the `vote` mutation publishes `targetType` as the lowercase database
enum (`"post"` / `"comment"`), but the `voteUpdated` subscription filter
compares it with the uppercase `"POST"` / `"COMMENT"`, so a subscriber whose
`postId` variable equals the voted post's id is never delivered the event;
the SSE endpoint compares lowercase and does deliver.  A comment vote does
carry the parent post id (`commentPostId`), which only the SSE filter
consults. -/
theorem voteUpdated_subscription_never_delivers :
    (voteMutation dbVoteFilterEx "u2" "p1" VotableType.POST VoteType.UPVOTE).map
      (fun out => (out.event.targetType,
        voteUpdatedSubFilter out.event ⟨some "p1", none⟩,
        sseVoteFilter out.event "p1")) = Except.ok ("post", false, true) ∧
    (voteMutation dbVoteFilterEx "u2" "c1" VotableType.COMMENT VoteType.UPVOTE).map
      (fun out => (out.event.targetType, out.event.commentPostId,
        voteUpdatedSubFilter out.event ⟨some "p1", none⟩,
        sseVoteFilter out.event "p1")) =
      Except.ok ("comment", some "p1", false, true) := by
  refine ⟨?_, ?_⟩ <;> decide

/-- C9: for every event kind carried by the fan-out bus, an event concerning
post `A` is never delivered to a listener registered for a different post `B`,
on the GraphQL subscription transport and on the SSE transport alike. -/
theorem cross_post_isolation (A B : String) (hAB : A ≠ B)
    (e1 : CommentAddedEvent) (e2 : CommentDeletedEvent) (e3 : PostUpdatedEvent)
    (e4 : UserTypingEvent) (e5 : VoteUpdatedEvent) (cid : Option String)
    (h1 : e1.postId = A) (h2 : e2.postId = A) (h3 : e3.id = A) (h4 : e4.postId = A)
    (h5 : voteEventForPost e5 A) :
    commentAddedSubFilter e1 B = false ∧
    sseCommentAddedFilter e1 B = false ∧
    sseCommentDeletedFilter e2 B = false ∧
    postUpdatedSubFilter e3 B = false ∧
    userTypingSubFilter e4 B = false ∧
    voteUpdatedSubFilter e5 ⟨some B, cid⟩ = false ∧
    sseVoteFilter e5 B = false := by
  refine ⟨?_, ?_, ?_, ?_, ?_, ?_, ?_⟩
  · simp [commentAddedSubFilter, h1, hAB]
  · simp [sseCommentAddedFilter, h1, hAB]
  · simp [sseCommentDeletedFilter, h2, hAB]
  · simp [postUpdatedSubFilter, h3, hAB]
  · simp [userTypingSubFilter, h4, hAB]
  · rcases h5 with ⟨hty, hid⟩ | ⟨hty, hpid⟩
    · simp [voteUpdatedSubFilter, hty]
    · simp [voteUpdatedSubFilter, hty]
  · rcases h5 with ⟨hty, hid⟩ | ⟨hty, hpid⟩
    · simp [sseVoteFilter, hty, hid, hAB]
    · simp [sseVoteFilter, hty, hpid, hAB]

theorem cross_post_isolation_witness :
    commentAddedSubFilter ⟨"c1", "a", none⟩ "b" = false ∧
    sseCommentAddedFilter ⟨"c1", "a", none⟩ "b" = false ∧
    sseCommentDeletedFilter ⟨"c2", "a", none⟩ "b" = false ∧
    postUpdatedSubFilter ⟨"a"⟩ "b" = false ∧
    userTypingSubFilter ⟨"u", "n", "a"⟩ "b" = false ∧
    voteUpdatedSubFilter ⟨"a", "post", 1, some VoteType.UPVOTE, none⟩
      ⟨some "b", none⟩ = false ∧
    sseVoteFilter ⟨"a", "post", 1, some VoteType.UPVOTE, none⟩ "b" = false :=
  cross_post_isolation "a" "b" (by decide) ⟨"c1", "a", none⟩ ⟨"c2", "a", none⟩ ⟨"a"⟩
    ⟨"u", "n", "a"⟩ ⟨"a", "post", 1, some VoteType.UPVOTE, none⟩ none
    rfl rfl rfl rfl (Or.inl ⟨rfl, rfl⟩)

/-- C8: a typing-presence entry whose last signal is older than the idle
threshold at query time is absent from the result of `getTypingUsers`, even
when it is still present in the stored map (the periodic sweep has not yet
removed it). -/
theorem stale_typing_absent (m : TypingMap) (postId uid : String) (now : Nat)
    (h : ∀ e ∈ (m.lookup postId).getD [], e.1 = uid →
      typingTimeout < now - e.2.lastTyping) :
    uid ∉ (getTypingUsers m postId now).map Prod.fst := by
  unfold getTypingUsers
  cases hl : m.lookup postId with
  | none => simp
  | some users =>
      rw [hl] at h
      simp only [Option.getD_some] at h
      intro hmem
      simp only [List.map_map, List.mem_map, List.mem_filter,
        Function.comp_apply] at hmem
      obtain ⟨e, ⟨hein, hfresh⟩, heq⟩ := hmem
      have hstale := h e hein heq
      simp only [decide_eq_true_eq] at hfresh
      omega

/-- Typing map holding a single entry for user `u9` on post `p1`, last
refreshed at time 0. -/
def typingMapEx : TypingMap := [("p1", [("u9", ⟨"alice", 0⟩)])]

theorem stale_typing_witness :
    "u9" ∉ (getTypingUsers typingMapEx "p1" 6000).map Prod.fst :=
  stale_typing_absent typingMapEx "p1" "u9" 6000 (by decide)

theorem orderedInsert_length (le : α → α → Bool) (a : α) (l : List α) :
    (orderedInsert le a l).length = l.length + 1 := by
  induction l with
  | nil => rfl
  | cons b t ih =>
      unfold orderedInsert
      split
      · simp
      · simp [ih]

theorem sortRows_length (le : α → α → Bool) (l : List α) :
    (sortRows le l).length = l.length := by
  unfold sortRows
  induction l with
  | nil => rfl
  | cons b t ih => simp [List.foldr_cons, orderedInsert_length, ih]

theorem sortComments_length (orderBy : CommentOrder) (l : List Comment) :
    (sortComments orderBy l).length = l.length := by
  cases orderBy <;> simp [sortComments, sortRows_length]

/-- C3 (amended): the `posts` query clamps its effective page size into
`[1, 50]` for every requested `first` (an omitted or zero value falls back to
the default 10; negative values clamp to 1; large values clamp to 50), but
the `comments` query applies no clamp at all: it returns
`min first matching-row-count` rows, exceeding 50 whenever `first > 50` and
enough rows exist. -/
theorem page_size_posts_clamped_comments_not (first : Option Int) (db : DB)
    (pid : String) (f : Int) (conn : CommentsConnection)
    (h : commentsQuery db pid f none CommentOrder.NEWEST = Except.ok conn) :
    (1 ≤ postsLimit first ∧ postsLimit first ≤ 50) ∧
    conn.edges.length = min f.toNat (commentsForPost db pid).length := by
  constructor
  · unfold postsLimit
    exact ⟨le_min (le_max_right _ 1) (by norm_num), min_le_right _ 50⟩
  · unfold commentsQuery at h
    cases hp : postLoad db pid with
    | none =>
        rw [hp] at h
        exact absurd h (by simp)
    | some post =>
        rw [hp] at h
        simp only [Except.ok.injEq] at h
        subst h
        simp only [List.length_map]
        have hsort := sortComments_length CommentOrder.NEWEST (commentsForPost db pid)
        have htake := List.length_take ((f + 1).toNat)
          (sortComments CommentOrder.NEWEST (commentsForPost db pid))
        simp only [positionAfterId]
        by_cases hnext : ((((sortComments CommentOrder.NEWEST
            (commentsForPost db pid)).take ((f + 1).toNat)).length : Int) > f)
    
        · rw [decide_eq_true hnext, if_pos rfl, List.length_dropLast]
          omega
        · rw [decide_eq_false hnext, if_neg (by simp)]
          omega

/-- Generic live comment row number `i` of post `p1` (distinct timestamps). -/
def commentRow (i : Nat) : Comment :=
  { id := "c" ++ toString i, postId := some "p1", parentId := none, authorId := "u1"
    content := "x", depth := 0, path := none, isEdited := false
    createdAt := 1000 + i, updatedAt := 0, deletedAt := none }

/-- Store with post `p1` and 51 live comments. -/
def dbManyComments : DB :=
  { posts := [postEx], comments := (List.range 51).map commentRow
    votes := [], bookmarks := [] }

/-- C3 (counterexample): the `comments` query called with `first = 1000`
returns 51 edges in one page — the caller's value is used unclamped, so the
effective page size is not within `[1, 50]`. -/
theorem comments_page_size_not_clamped :
    (commentsQuery dbManyComments "p1" 1000 none CommentOrder.NEWEST).map
      (fun conn => conn.edges.length) = Except.ok 51 ∧
    ¬ (51 ≤ 50) := by
  refine ⟨by decide, by decide⟩

/-- The connection the `comments` query returns on `dbManyComments` with
`first = 1000` (evaluated for use as a concrete theorem instance). -/
def commentsConnEx : CommentsConnection :=
  (commentsQuery dbManyComments "p1" 1000 none CommentOrder.NEWEST).toOption.getD
    default

theorem page_size_clamp_witness :
    (1 ≤ postsLimit (some 1000) ∧ postsLimit (some 1000) ≤ 50) ∧
    commentsConnEx.edges.length =
      min (Int.toNat 1000) (commentsForPost dbManyComments "p1").length :=
  page_size_posts_clamped_comments_not (some 1000) dbManyComments "p1" 1000
    commentsConnEx (by decide)

/-- C10 (counterexample): a successful `post(id)` query also rewrites the
stored row's `updated_at` — the `update_posts_updated_at` trigger fires on the
view-counter update — so a field other than the view counter changes. -/
theorem post_query_changes_updatedAt :
    (postQuery dbPostOnly "p1" 5 none).map
      (fun r => r.2.posts.map Post.updatedAt) = Except.ok [5] ∧
    dbPostOnly.posts.map Post.updatedAt = [0] ∧
    (5 : Nat) ≠ 0 := by
  refine ⟨by decide, by decide, by decide⟩

/-- C10 (amended): a successful `post(id)` query returns `(views ?? 0) + 1`
and increments the stored view counter by one (a NULL counter stays NULL),
leaves every other column of the row unchanged except `updated_at`, which the
`BEFORE UPDATE` trigger sets to the current time, and leaves all other posts
rows and the comments, votes and bookmarks tables untouched; the one further
effect is on `audit_logs`: the `AFTER UPDATE` `audit_posts_trigger` appends
one row per updated posts row, recording action `UPDATE` on table `posts`
with the queried id (existing audit rows are retained).  A query for an
absent or soft-deleted post fails with NotFound and, being the mutationless
error path, changes no state. -/
theorem post_query_amended (db : DB) (id : String) (now : Nat) (u : Option String) :
    (∀ post, postLoad db id = some post →
      ∃ node db2, postQuery db id now u = Except.ok (node, db2) ∧
        node.views = post.views.getD 0 + 1 ∧
        db2.posts = db.posts.map (fun p => if p.id = id then bumpViews p now else p) ∧
        (∀ p ∈ db.posts, ¬ p.id = id → p ∈ db2.posts) ∧
        db2.comments = db.comments ∧ db2.votes = db.votes ∧
        db2.bookmarks = db.bookmarks ∧
        db2.auditLogs = db.auditLogs ++
          (db.posts.filter (fun p => decide (p.id = id))).map
            (fun p => postUpdateAuditRow p (bumpViews p now)) ∧
        (∀ a ∈ db2.auditLogs, a ∈ db.auditLogs ∨
          (a.action = "UPDATE" ∧ a.tableName = "posts" ∧ a.recordId = id))) ∧
    (postLoad db id = none →
      postQuery db id now u = Except.error (GQLError.notFound "Post not found")) ∧
    (∀ p : Post, (bumpViews p now).id = p.id ∧ (bumpViews p now).title = p.title ∧
      (bumpViews p now).content = p.content ∧
      (bumpViews p now).threadType = p.threadType ∧
      (bumpViews p now).authorId = p.authorId ∧
      (bumpViews p now).isPinned = p.isPinned ∧
      (bumpViews p now).isLocked = p.isLocked ∧
      (bumpViews p now).createdAt = p.createdAt ∧
      (bumpViews p now).deletedAt = p.deletedAt ∧
      (bumpViews p now).updatedAt = now ∧
      (∀ v, p.views = some v → (bumpViews p now).views = some (v + 1)) ∧
      (p.views = none → (bumpViews p now).views = none)) := by
  refine ⟨?_, ?_, ?_⟩
  · intro post hp
    unfold postQuery
    rw [hp]
    refine ⟨_, _, rfl, rfl, rfl, ?_, rfl, rfl, rfl, rfl, ?_⟩
    · intro p hmem hne
      rw [List.mem_map]
      exact ⟨p, hmem, by simp [hne]⟩
    · intro a ha
      have ha2 : a ∈ db.auditLogs ++
          (db.posts.filter (fun p => decide (p.id = id))).map
            (fun p => postUpdateAuditRow p (bumpViews p now)) := ha
      rw [List.mem_append] at ha2
      rcases ha2 with hold | hnew
      · exact Or.inl hold
      · right
        rw [List.mem_map] at hnew
        obtain ⟨p, hpmem, hpa⟩ := hnew
        have hpid : p.id = id := by
          have := (List.mem_filter.mp hpmem).2
          simpa using this
        subst hpa
        exact ⟨rfl, rfl, hpid⟩
  · intro hp
    unfold postQuery
    rw [hp]
  · intro p
    refine ⟨rfl, rfl, rfl, rfl, rfl, rfl, rfl, rfl, rfl, rfl, ?_, ?_⟩
    · intro v hv
      simp [bumpViews, hv]
    · intro hv
      simp [bumpViews, hv]

theorem post_query_amended_witness :
    (postQuery dbPostOnly "p1" 5 none).map (fun r => r.1.views) = Except.ok 1 ∧
    postQuery dbEmpty "p1" 5 none = Except.error (GQLError.notFound "Post not found") := by
  constructor
  · obtain ⟨node, db2, heq, hviews, -⟩ :=
      (post_query_amended dbPostOnly "p1" 5 none).1 postEx (by decide)
    rw [heq]
    simp only [Except.map]
    rw [hviews]
    decide
  · exact (post_query_amended dbEmpty "p1" 5 none).2.1 (by decide)
